import Mathlib

/-!
Verification of the SceneSwitcher Twitch chat-connection core and the
OpenCV helper routines, as a shallow embedding.

The repository provides `src/plugins/twitch/chat-connection.hpp`
(declarations and data model: `IRCMessage`, `TwitchChatConnection`,
`ChatMapKey`, `State`) and `src/src/macro-external/video/opencv-helpers.cpp`
(full implementations).  The member-function bodies of
`TwitchChatConnection` live in a `.cpp` file that is not part of the
sources, so their behaviour is modelled from the specification; the data
shapes are taken from the header, and the OpenCV helpers are translated
from the `.cpp` source directly.
-/

namespace advss

/-! ## Data model (from `chat-connection.hpp`, lines 17-42) -/

/-- `IRCMessage::Badge` (header lines 18-21). -/
structure Badge where
  name : String
  enabled : Bool
  deriving DecidableEq, Repr

/-- The anonymous `properties` struct of `IRCMessage` (header lines 22-31). -/
structure IRCProperties where
  badgesString : String := ""
  badges : List Badge := []
  displayName : String := ""
  isFirstMessage : Bool := false
  isUsingOnlyEmotes : Bool := false
  isMod : Bool := false
  isSubscriber : Bool := false
  isTurbo : Bool := false
  deriving DecidableEq, Repr

/-- The anonymous `source` struct of `IRCMessage` (header lines 32-35). -/
structure IRCSource where
  nick : String := ""
  host : String := ""
  deriving DecidableEq, Repr

/-- `std::variant<std::string, bool, std::vector<std::string>>`, the
`parameters` member of the `command` struct (header lines 38-39). -/
inductive IRCParams where
  | text (s : String)
  | flag (b : Bool)
  | tokens (l : List String)
  deriving DecidableEq, Repr

/-- The anonymous `command` struct of `IRCMessage` (header lines 36-40). -/
structure IRCCommand where
  command : String := ""
  parameters : IRCParams := .text ""
  deriving DecidableEq, Repr

/-- `IRCMessage` (header lines 17-42). -/
structure IRCMessage where
  properties : IRCProperties := {}
  source : IRCSource := {}
  command : IRCCommand := {}
  message : String := ""
  deriving DecidableEq, Repr

/-- `TwitchChatConnection::State` (header line 103). -/
inductive State where
  | DISCONNECTED
  | CONNECTING
  | CONNECTED
  deriving DecidableEq, Repr

/-- `TwitchChatConnection::ChatMapKey` (header lines 84-88): the registry
key, holding the joined channel name and the credential identifier. -/
structure ChatMapKey where
  channelName : String
  token : String
  deriving DecidableEq, Repr

/-- Modelled from the spec: the body of `ChatMapKey::operator<` is not in
the sources (only its declaration, header line 87).  The spec states the
key comparison is total and stable, "comparing channel name then
credential identifier". -/
def ChatMapKey.lt (a b : ChatMapKey) : Prop :=
  a.channelName < b.channelName ∨
    (a.channelName = b.channelName ∧ a.token < b.token)

/-! ## Character-list utilities used by the line codec -/

/-- Split a character list at the first occurrence of `c`: returns the part
before and, when `c` occurs, the part after it. -/
def breakAt (c : Char) : List Char → List Char × Option (List Char)
  | [] => ([], none)
  | x :: xs =>
    if x = c then ([], some xs)
    else
      let p := breakAt c xs
      (x :: p.1, p.2)

/-- Split a character list on every occurrence of `c`. -/
def splitListOn (c : Char) : List Char → List (List Char)
  | [] => [[]]
  | x :: xs =>
    let r := splitListOn c xs
    if x = c then [] :: r
    else (x :: r.headD []) :: r.tail

/-- Split a line at the first occurrence of the two-character sequence
`" :"`, which opens the trailing parameter of the IRC grammar. -/
def breakTrailing : List Char → List Char × Option (List Char)
  | [] => ([], none)
  | x :: xs =>
    if x = ' ' ∧ xs.head? = some ':' then ([], some xs.tail)
    else
      let p := breakTrailing xs
      (x :: p.1, p.2)

/-- No adjacent `' '` followed by `':'` occurs in the list: such a list
contains no trailing-parameter separator. -/
def noSpaceColon : List Char → Bool
  | [] => true
  | [_] => true
  | x :: y :: rest => (!(x == ' ' && y == ':')) && noSpaceColon (y :: rest)

/-! ## Line protocol codec

Modelled from the spec: the bodies of `TwitchChatConnection::OnMessage`
and of the parsing helpers are not in the sources; the grammar follows
spec section 4.1 ("optional tag block prefixed by `@` … optional source
prefix starting with `:` … a command token … zero or more middle
parameters … an optional trailing parameter starting with `:`"), and the
produced record shapes follow `IRCMessage` in the header. -/

/-- Modelled from the spec: "Tag value decoding unescapes
protocol-reserved escape sequences (space, semicolon, backslash, CR, LF)
per the tag-encoding convention of the protocol." -/
def unescapeTagValue : List Char → List Char
  | [] => []
  | '\\' :: c :: rest =>
    (if c = 's' then ' '
     else if c = ':' then ';'
     else if c = 'r' then '\r'
     else if c = 'n' then '\n'
     else c) :: unescapeTagValue rest
  | c :: rest => c :: unescapeTagValue rest

/-- Modelled from the spec: "Badge tag decoding: splits a `/`- and
`,`-delimited badge list into named badge entries, each considered
enabled." -/
def parseBadges (s : String) : List Badge :=
  (splitListOn ',' s.data).filterMap fun entry =>
    if entry = [] then none
    else some { name := String.mk (breakAt '/' entry).1, enabled := true }

/-- Modelled from the spec: applies one `key=value` (or bare `key`) tag to
the property record; the recognized keys are the properties listed in the
header (badge list, display name, first-message, emote-only,
moderator/subscriber/turbo flags). -/
def applyTag (props : IRCProperties) (tag : List Char) : IRCProperties :=
  let p := breakAt '=' tag
  let key := String.mk p.1
  let value := String.mk (unescapeTagValue (p.2.getD []))
  if key = "badges" then
    { props with badgesString := value, badges := parseBadges value }
  else if key = "display-name" then { props with displayName := value }
  else if key = "first-msg" then { props with isFirstMessage := value = "1" }
  else if key = "emote-only" then
    { props with isUsingOnlyEmotes := value = "1" }
  else if key = "mod" then { props with isMod := value = "1" }
  else if key = "subscriber" then { props with isSubscriber := value = "1" }
  else if key = "turbo" then { props with isTurbo := value = "1" }
  else props

/-- Modelled from the spec: the tag block is a `;`-separated list of
`key=value` pairs (the spec's own worked example
`@badges=subscriber/12,vip/1;display-name=Foo …` separates tags with `;`;
commas delimit entries inside the badge list). -/
def parseTags (l : List Char) : IRCProperties :=
  (splitListOn ';' l).foldl applyTag {}

/-- Modelled from the spec: the source prefix has "form `nick!user@host`
or a bare host"; with a `!` present the nick is the part before it and
the host the part after the `@`, otherwise the whole prefix is the host. -/
def parseSource (l : List Char) : IRCSource :=
  let p := breakAt '!' l
  match p.2 with
  | some rest =>
    let q := breakAt '@' rest
    { nick := String.mk p.1, host := String.mk (q.2.getD q.1) }
  | none => { nick := "", host := String.mk p.1 }

/-- Space-separated tokens of the middle-parameter segment. -/
def tokenize (l : List Char) : List (List Char) :=
  (splitListOn ' ' l).filter fun t => t ≠ []

/-- Modelled from the spec: "Command-specific parameter shape is fixed per
command (examples: a join-type command carries a single channel-name
string parameter; a user-state command carries a boolean; a names-list
command carries a list of nick tokens) … unrecognized commands default to
the most permissive shape (free text)."  The names-list command is the
`353` numeric and the user-state commands are `USERSTATE` and
`GLOBALUSERSTATE`; the spec does not pin down which boolean a user-state
command carries, so the model records whether the middle segment is
non-empty. -/
def paramsFor (cmd : String) (rawMiddle : List Char) : IRCParams :=
  if cmd = "353" then .tokens ((tokenize rawMiddle).map String.mk)
  else if cmd = "USERSTATE" ∨ cmd = "GLOBALUSERSTATE" then
    .flag (!rawMiddle.isEmpty)
  else .text (String.mk rawMiddle)

/-- Strip the optional tag block (`@…` up to the first space). -/
def splitTagBlock (l : List Char) : Option (List Char) × List Char :=
  match l with
  | [] => (none, [])
  | x :: rest =>
    if x = '@' then
      let p := breakAt ' ' rest
      (some p.1, p.2.getD [])
    else (none, l)

/-- Strip the optional source prefix (`:…` up to the first space). -/
def splitSourceBlock (l : List Char) : Option (List Char) × List Char :=
  match l with
  | [] => (none, [])
  | x :: rest =>
    if x = ':' then
      let p := breakAt ' ' rest
      (some p.1, p.2.getD [])
    else (none, l)

/-- Modelled from the spec: the full line parser (spec section 4.1), the
receiving half of the Line Protocol Codec.  The body of the parsing code
is not in the sources; the output record is the header's `IRCMessage`. -/
def parseIRCChars (l : List Char) : IRCMessage :=
  let t := splitTagBlock l
  let s := splitSourceBlock t.2
  let bt := breakTrailing s.2
  let cp := breakAt ' ' bt.1
  let cmdName := String.mk cp.1
  { properties := match t.1 with | some tags => parseTags tags | none => {}
    source := match s.1 with | some src => parseSource src | none => {}
    command :=
      { command := cmdName, parameters := paramsFor cmdName (cp.2.getD []) }
    message := String.mk (bt.2.getD []) }

/-- Parse one raw protocol line into a structured message. -/
def parseIRC (s : String) : IRCMessage := parseIRCChars s.data

/-- The three alternatives of the `parameters` variant. -/
inductive ParamShape where
  | textShape
  | flagShape
  | tokensShape
  deriving DecidableEq, Repr

/-- Which variant alternative a parameter value inhabits. -/
def IRCParams.shape : IRCParams → ParamShape
  | .text _ => .textShape
  | .flag _ => .flagShape
  | .tokens _ => .tokensShape

/-- The parameter shape assigned to each command name: the names-list
numeric carries a token list, the user-state commands carry a boolean,
every other command the free-text default. -/
def expectedShape (cmd : String) : ParamShape :=
  if cmd = "353" then .tokensShape
  else if cmd = "USERSTATE" ∨ cmd = "GLOBALUSERSTATE" then .flagShape
  else .textShape

/-! ## Outgoing commands and serialization (sending half of the codec) -/

/-- The supported outgoing command types (spec section 6: "Outgoing wire
lines produced: `PASS <token>`, `NICK <name>`, capability-request
line(s), `JOIN #<channel>`, `PRIVMSG #<channel> :<text>`,
`PONG :<payload>`"). -/
inductive TwitchCommand where
  | pass (token : String)
  | nick (name : String)
  | capReq (caps : String)
  | join (channel : String)
  | privmsg (channel : String) (text : String)
  | pong (payload : String)
  deriving DecidableEq, Repr

/-- Modelled from the spec: serialization of an outgoing command into one
wire line, following the exact line formats of spec section 6 (the body
of `TwitchChatConnection::Send` and its callers is not in the sources). -/
def serializeCommand : TwitchCommand → String
  | .pass t => "PASS " ++ t
  | .nick n => "NICK " ++ n
  | .capReq c => "CAP REQ :" ++ c
  | .join ch => "JOIN #" ++ ch
  | .privmsg ch txt => "PRIVMSG #" ++ ch ++ " :" ++ txt
  | .pong p => "PONG :" ++ p

/-- Re-serialize a parsed message back into a wire line: command token,
then the middle-parameter segment, then the trailing segment prefixed by
`" :"` when present. -/
def reserializeMessage (m : IRCMessage) : String :=
  let mid :=
    match m.command.parameters with
    | .text s => s
    | .flag _ => ""
    | .tokens l => String.intercalate " " l
  m.command.command
    ++ (if mid = "" then "" else " " ++ mid)
    ++ (if m.message = "" then "" else " :" ++ m.message)

/-- Validity of the caller-supplied pieces of an outgoing command (spec
section 4.1: "caller supplies parameters already validated"): tokens and
names are non-empty, contain no space and do not open a trailing
segment; channel names contain no space; trailing texts are non-empty. -/
def WellFormedCommand : TwitchCommand → Prop
  | .pass t => t ≠ "" ∧ ' ' ∉ t.data ∧ t.data.head? ≠ some ':'
  | .nick n => n ≠ "" ∧ ' ' ∉ n.data ∧ n.data.head? ≠ some ':'
  | .capReq c => c ≠ ""
  | .join ch => ' ' ∉ ch.data
  | .privmsg ch txt => ' ' ∉ ch.data ∧ txt ≠ ""
  | .pong p => p ≠ ""

instance (c : TwitchCommand) : Decidable (WellFormedCommand c) := by
  cases c <;> (unfold WellFormedCommand; infer_instance)

/-! ## Connection state machine (observable side) -/

/-- The observable state of one chat connection: its lifecycle state, the
joined channel, the lines written to the transport, and the two dispatch
buffers (chat messages and whispers).  Shapes from the header
(`_state`, `_joinedChannelName`, `_messageDispatcher`,
`_whisperDispatcher`). -/
structure ChatConn where
  state : State := .DISCONNECTED
  channelName : String := ""
  authenticated : Bool := false
  sentLines : List String := []
  chatMessages : List IRCMessage := []
  whisperMessages : List IRCMessage := []
  deriving DecidableEq, Repr

/-- Modelled from the spec: `TwitchChatConnection::SendChatMessage` (body
not in the sources): "if not Connected, the call is a no-op (message is
dropped — no implicit queueing).  If Connected, serializes and writes one
PRIVMSG line to the transport." -/
def sendChatMessage (c : ChatConn) (text : String) : ChatConn :=
  if c.state = .CONNECTED then
    { c with
      sentLines :=
        c.sentLines ++ [serializeCommand (.privmsg c.channelName text)] }
  else c

/-- Modelled from the spec: `TwitchChatConnection::OnMessage` routing
(body not in the sources), spec section 4.2: "a ping-type command
triggers an immediate pong reply without surfacing to consumers.  An
authentication-failure notice aborts the connect attempt … A
join-confirmation for the target channel completes the Connect
handshake.  A private-message command is routed to the whisper
dispatcher.  A standard chat message command is routed to the chat
dispatcher … Any other recognized control command updates local
bookkeeping only". -/
def onMessage (c : ChatConn) (line : String) : ChatConn :=
  let m := parseIRC line
  if m.command.command = "PING" then
    { c with sentLines := c.sentLines ++ ["PONG :" ++ m.message] }
  else if m.command.command = "PRIVMSG" then
    { c with chatMessages := c.chatMessages ++ [m] }
  else if m.command.command = "WHISPER" then
    { c with whisperMessages := c.whisperMessages ++ [m] }
  else if m.command.command = "NOTICE" then
    if m.message = "Login authentication failed" then
      { c with state := .DISCONNECTED, authenticated := false }
    else c
  else if m.command.command = "JOIN" then
    if m.command.parameters = .text ("#" ++ c.channelName) then
      { c with state := .CONNECTED }
    else c
  else c

/-! ## Worker / reconnect state machine -/

/-- The worker-visible state for the reconnect policy: lifecycle state,
the stop flag (`_stop` in the header), a logical clock, and the times at
which reconnect attempts were started. -/
structure WorkerConn where
  state : State := .DISCONNECTED
  stopFlag : Bool := false
  now : Nat := 0
  reconnectTimes : List Nat := []
  deriving DecidableEq, Repr

/-- Modelled from the spec: `TwitchChatConnection::HandleReconnect` (body
not in the sources): "on close/fail, if `stop` is not set, wait a backoff
interval and reconnect …; if `stop` is set, exit the worker and leave
state Disconnected permanently."  The backoff wait advances the logical
clock by `backoff` and the single reconnect attempt is recorded at that
time. -/
def handleReconnect (backoff : Nat) (c : WorkerConn) : WorkerConn :=
  if c.stopFlag then { c with state := .DISCONNECTED }
  else
    { c with
      state := .CONNECTING
      now := c.now + backoff
      reconnectTimes := c.reconnectTimes ++ [c.now + backoff] }

/-- Modelled from the spec: `TwitchChatConnection::Disconnect` (body not
in the sources): "sets the stop flag, unblocks any blocking read on the
transport, and joins the worker thread; idempotent." -/
def disconnect (c : WorkerConn) : WorkerConn :=
  { c with stopFlag := true, state := .DISCONNECTED }

/-- Events the worker observes after a connection is up: a transport
close, a transport failure, or an external `Disconnect` request. -/
inductive WorkerEvent where
  | closeEvt
  | failEvt
  | disconnectEvt
  deriving DecidableEq, Repr

/-- One worker transition per observed event: close and fail both run the
reconnect handler, a disconnect request runs `disconnect`. -/
def workerStep (backoff : Nat) (c : WorkerConn) : WorkerEvent → WorkerConn
  | .closeEvt => handleReconnect backoff c
  | .failEvt => handleReconnect backoff c
  | .disconnectEvt => disconnect c

/-- Run the worker over a sequence of events. -/
def workerRun (backoff : Nat) (c : WorkerConn) : List WorkerEvent → WorkerConn
  | [] => c
  | e :: es => workerRun backoff (workerStep backoff c e) es

/-! ## Connection registry -/

/-- The registry state: the `_chatMap` association from identity key to a
connection instance (instances named by numeric ids standing for the
`weak_ptr` targets), the next fresh id, and the set of ids whose weak
references have expired. -/
structure ChatRegistry where
  chatMap : List (ChatMapKey × Nat) := []
  nextId : Nat := 0
  expired : List Nat := []
  deriving DecidableEq, Repr

/-- Look an identity key up in the registry map. -/
def findConn (k : ChatMapKey) : List (ChatMapKey × Nat) → Option Nat
  | [] => none
  | e :: rest => if e.1 = k then some e.2 else findConn k rest

/-- Register `id` under key `k`, replacing an existing entry for `k`. -/
def setConn (k : ChatMapKey) (id : Nat) :
    List (ChatMapKey × Nat) → List (ChatMapKey × Nat)
  | [] => [(k, id)]
  | e :: rest => if e.1 = k then (k, id) :: rest else e :: setConn k id rest

/-- Modelled from the spec: `TwitchChatConnection::GetChatConnection`
(body not in the sources): "normalizes the identity key; if a live
(non-expired) weak reference exists for that key, returns the strong
handle to it; otherwise constructs a new connection, registers a weak
reference under the key, and returns it … Entries for expired weak
references are replaced, not leaked."  The key is already normalized. -/
def getChatConnection (k : ChatMapKey) (r : ChatRegistry) :
    Nat × ChatRegistry :=
  match findConn k r.chatMap with
  | some id =>
    if id ∈ r.expired then
      (r.nextId,
       { r with chatMap := setConn k r.nextId r.chatMap
                nextId := r.nextId + 1 })
    else (id, r)
  | none =>
    (r.nextId,
     { r with chatMap := setConn k r.nextId r.chatMap
              nextId := r.nextId + 1 })

/-- The keys stored in a registry map are pairwise distinct (the map in
the source is a `std::map`, which holds at most one entry per key). -/
def KeysNodup (m : List (ChatMapKey × Nat)) : Prop :=
  (m.map Prod.fst).Nodup

/-! ## OpenCV helpers (from `opencv-helpers.cpp`)

These definitions are translated from the source file directly.  The
OpenCV library primitives (`cv::split`/`cv::merge`/`cv::matchTemplate`
and the raw byte wrap of `QImageToMat`) are external collaborators and
are abstracted as function parameters; everything written in the
repository file itself is modelled concretely.  Matrix entries are exact
rationals standing for the C++ floating-point values. -/

/-- A `cv::Mat`/`cv::UMat` of single-channel values. -/
structure Mat where
  rows : Nat := 0
  cols : Nat := 0
  entries : List (List ℚ) := []
  deriving DecidableEq, Repr

/-- `cv::Mat::empty()`: true when the matrix has no elements. -/
def Mat.isEmptyMat (m : Mat) : Bool := m.rows == 0 || m.cols == 0

/-- A `QColor` with integer RGB components. -/
structure QColor where
  red : Int := 0
  green : Int := 0
  blue : Int := 0
  deriving DecidableEq, Repr

/-- A `QImage` in `Format_RGBA8888`: its size and its pixel grid (row
`y`, column `x`). -/
structure QImage where
  width : Nat := 0
  height : Nat := 0
  pixels : List (List QColor) := []
  deriving DecidableEq, Repr

/-- `QImage::isNull()`: a null image has no pixels. -/
def QImage.isNull (img : QImage) : Bool := img.width == 0 || img.height == 0

/-- `QImage::pixelColor(x, y)`. -/
def QImage.pixelColor (img : QImage) (x y : Nat) : QColor :=
  (img.pixels.getD y []).getD x {}

/-- `cv::TemplateMatchModes` (the modes named in the source). -/
inductive TemplateMatchModes where
  | TM_SQDIFF
  | TM_SQDIFF_NORMED
  | TM_CCORR
  | TM_CCORR_NORMED
  | TM_CCOEFF
  | TM_CCOEFF_NORMED
  deriving DecidableEq, Repr

/-- `PatternImageData` (declared in `opencv-helpers.hpp`, populated by
`CreatePatternData`): the RGBA pattern, its RGB projection, and the
alpha-derived mask. -/
structure PatternImageData where
  rgbaPattern : Mat := {}
  rgbPattern : Mat := {}
  mask : Mat := {}
  deriving DecidableEq, Repr

/-- The OpenCV library primitives used by `MatchPattern`, abstracted:
`wrapImage` is the raw data wrap inside `QImageToMat`, `splitMerge3` is
the `cv::split` + `cv::merge` of the first three channels, and the two
template matchers are `cv::matchTemplate` without and with a mask. -/
structure CvOps where
  wrapImage : QImage → Mat
  splitMerge3 : Mat → Mat
  matchTemplate : Mat → Mat → TemplateMatchModes → Mat
  matchTemplateMasked : Mat → Mat → TemplateMatchModes → Mat → Mat

/-- A concrete instantiation of the OpenCV primitives, used to evaluate
the helpers on concrete inputs. -/
def trivialCvOps : CvOps where
  wrapImage := fun _ => {}
  splitMerge3 := fun m => m
  matchTemplate := fun m _ _ => m
  matchTemplateMasked := fun m _ _ _ => m

/-- `QImageToMat` (source lines 215-223): a null image maps to the empty
matrix, otherwise the image bits are wrapped into a matrix. -/
def QImageToMat (ops : CvOps) (img : QImage) : Mat :=
  if img.isNull then {} else ops.wrapImage img

/-- `invertPatternMatchResult` (source lines 27-36): replaces every entry
`x` by `1.0 - x`. -/
def invertPatternMatchResult (m : Mat) : Mat :=
  { m with entries := m.entries.map fun row => row.map fun x => 1 - x }

/-- `cv::threshold(…, THRESH_TOZERO)` as used on the match result
(source line 78): entries at most the threshold become `0`, larger
entries are kept. -/
def thresholdToZero (threshold : ℚ) (m : Mat) : Mat :=
  { m with
    entries :=
      m.entries.map fun row => row.map fun x =>
        if x > threshold then x else 0 }

/-- `MatchPattern` (source lines 38-79): early-outs on a null image, an
empty pattern, or an image strictly smaller than the pattern in height
or width (leaving `result` untouched); otherwise runs the template
matcher (masked RGB path or plain RGBA path), inverts the result for
`TM_SQDIFF_NORMED`, and applies the to-zero threshold. -/
def MatchPattern (ops : CvOps) (img : QImage)
    (patternData : PatternImageData) (threshold : ℚ) (result : Mat)
    (useAlphaAsMask : Bool) (matchMode : TemplateMatchModes) : Mat :=
  if img.isNull || patternData.rgbaPattern.isEmptyMat then result
  else if img.height < patternData.rgbaPattern.rows ||
      img.width < patternData.rgbaPattern.cols then result
  else
    let input := QImageToMat ops img
    let raw :=
      if useAlphaAsMask then
        ops.matchTemplateMasked (ops.splitMerge3 input)
          patternData.rgbPattern matchMode patternData.mask
      else ops.matchTemplate input patternData.rgbaPattern matchMode
    let inverted :=
      if matchMode = .TM_SQDIFF_NORMED then invertPatternMatchResult raw
      else raw
    thresholdToZero threshold inverted

/-- `static_cast<int>` applied to a real value: truncation toward zero. -/
def truncToInt (q : ℚ) : Int := if 0 ≤ q then ⌊q⌋ else -⌊-q⌋

/-- The pixel-counting loop of `ContainsPixelsInColorRange` (source lines
190-206): the number of pixels whose per-channel absolute difference
from `color` is at most `maxColorDiff` in all three channels. -/
def matchingPixelCount (image : QImage) (color : QColor)
    (maxColorDiff : Int) : Nat :=
  ((List.range image.height).map fun y =>
    ((List.range image.width).filter fun x =>
      let p := image.pixelColor x y
      decide (((p.red - color.red).natAbs : Int) ≤ maxColorDiff ∧
        ((p.green - color.green).natAbs : Int) ≤ maxColorDiff ∧
        ((p.blue - color.blue).natAbs : Int) ≤ maxColorDiff)).length).sum

/-- `ContainsPixelsInColorRange` (source lines 182-211): counts matching
pixels and compares the matched fraction against
`totalPixelMatchThreshold`.  The source divides by
`totalPixels = width * height` without a zero guard; for a zero-pixel
image that division is a division by zero, surfaced here as `none`. -/
def ContainsPixelsInColorRange (image : QImage) (color : QColor)
    (colorDeviationThreshold totalPixelMatchThreshold : ℚ) : Option Bool :=
  let totalPixels := image.width * image.height
  let maxColorDiff := truncToInt (colorDeviationThreshold * 255)
  let matchingPixels := matchingPixelCount image color maxColorDiff
  if totalPixels = 0 then none
  else
    some (decide
      ((matchingPixels : ℚ) / (totalPixels : ℚ) ≥ totalPixelMatchThreshold))

/-! ## Helper lemmas -/

theorem stopped_step (backoff : Nat) (c : WorkerConn) (e : WorkerEvent)
    (h1 : c.stopFlag = true) (h2 : c.state = .DISCONNECTED) :
    workerStep backoff c e = c := by
  obtain ⟨s, f, n, rt⟩ := c
  dsimp only at h1 h2
  subst h1 h2
  cases e <;> simp [workerStep, handleReconnect, disconnect]

theorem workerRun_stopped (backoff : Nat) (evs : List WorkerEvent) :
    ∀ c : WorkerConn, c.stopFlag = true → c.state = .DISCONNECTED →
      workerRun backoff c evs = c := by
  induction evs with
  | nil => intro c _ _; rfl
  | cons e es ih =>
    intro c h1 h2
    rw [workerRun, stopped_step backoff c e h1 h2]
    exact ih c h1 h2

theorem findConn_setConn (k : ChatMapKey) (id : Nat)
    (m : List (ChatMapKey × Nat)) : findConn k (setConn k id m) = some id := by
  induction m with
  | nil => simp [setConn, findConn]
  | cons e rest ih =>
    by_cases h : e.1 = k
    · simp [setConn, findConn, h]
    · simp [setConn, findConn, h, ih]

theorem map_fst_setConn (k : ChatMapKey) (id : Nat)
    (m : List (ChatMapKey × Nat)) :
    (setConn k id m).map Prod.fst =
      if k ∈ m.map Prod.fst then m.map Prod.fst
      else m.map Prod.fst ++ [k] := by
  induction m with
  | nil => simp [setConn]
  | cons e rest ih =>
    by_cases h : e.1 = k
    · simp [setConn, h]
    · by_cases hm : k ∈ rest.map Prod.fst
      · simp [setConn, h, ih, hm, Ne.symm h]
      · simp [setConn, h, ih, hm, Ne.symm h]

theorem keysNodup_setConn (k : ChatMapKey) (id : Nat)
    (m : List (ChatMapKey × Nat)) (h : KeysNodup m) :
    KeysNodup (setConn k id m) := by
  unfold KeysNodup at h ⊢
  rw [map_fst_setConn]
  split
  · exact h
  · next hk => simp [List.nodup_append, h, hk]

theorem shape_paramsFor (cmd : String) (m : List Char) :
    (paramsFor cmd m).shape = expectedShape cmd := by
  unfold paramsFor expectedShape
  split_ifs <;> rfl

theorem breakAt_not_mem (c : Char) (l : List Char) (h : c ∉ l) :
    breakAt c l = (l, none) := by
  induction l with
  | nil => rfl
  | cons x xs ih =>
    simp only [List.mem_cons, not_or] at h
    rw [breakAt, if_neg (fun he => h.1 he.symm)]
    simp [ih h.2]

theorem breakAt_append (c : Char) (l₁ l₂ : List Char) (h : c ∉ l₁) :
    breakAt c (l₁ ++ c :: l₂) = (l₁, some l₂) := by
  induction l₁ with
  | nil => simp [breakAt]
  | cons x xs ih =>
    simp only [List.mem_cons, not_or] at h
    rw [List.cons_append, breakAt, if_neg (fun he => h.1 he.symm)]
    simp [ih h.2]

theorem noSC_of_no_space (l : List Char) (h : ' ' ∉ l) :
    noSpaceColon l = true := by
  induction l with
  | nil => rfl
  | cons x xs ih =>
    simp only [List.mem_cons, not_or] at h
    cases xs with
    | nil => rfl
    | cons y ys =>
      rw [noSpaceColon]
      simp only [Bool.and_eq_true, Bool.not_eq_true']
      refine ⟨?_, ih h.2⟩
      simp only [Bool.and_eq_false_iff, beq_eq_false_iff_ne, ne_eq]
      exact Or.inl (fun he => h.1 he.symm)

theorem breakTrailing_noSC (l : List Char) (h : noSpaceColon l = true) :
    breakTrailing l = (l, none) := by
  induction l with
  | nil => rfl
  | cons x xs ih =>
    cases xs with
    | nil => simp [breakTrailing]
    | cons y ys =>
      rw [noSpaceColon] at h
      simp only [Bool.and_eq_true, Bool.not_eq_true', Bool.and_eq_false_iff,
        beq_eq_false_iff_ne, ne_eq] at h
      obtain ⟨h1, h2⟩ := h
      rw [breakTrailing, if_neg ?cond]
      · simp [ih h2]
      case cond =>
        rintro ⟨hx, hy⟩
        simp only [List.head?_cons, Option.some.injEq] at hy
        rcases h1 with h1 | h1
        · exact h1 hx
        · exact h1 hy

theorem breakTrailing_append (l₁ l₂ : List Char)
    (h : noSpaceColon l₁ = true) :
    breakTrailing (l₁ ++ ' ' :: ':' :: l₂) = (l₁, some l₂) := by
  induction l₁ with
  | nil => simp [breakTrailing]
  | cons x xs ih =>
    cases xs with
    | nil =>
      rw [List.cons_append, List.nil_append, breakTrailing, if_neg (by simp)]
      simp [breakTrailing]
    | cons y ys =>
      rw [noSpaceColon] at h
      simp only [Bool.and_eq_true, Bool.not_eq_true', Bool.and_eq_false_iff,
        beq_eq_false_iff_ne, ne_eq] at h
      obtain ⟨h1, h2⟩ := h
      rw [List.cons_append, breakTrailing, if_neg ?cond]
      · have ih2 := ih h2
        rw [List.cons_append] at ih2
        simp [ih2]
      case cond =>
        rintro ⟨hx, hy⟩
        simp only [List.cons_append, List.head?_cons, Option.some.injEq] at hy
        rcases h1 with h1 | h1
        · exact h1 hx
        · exact h1 hy

theorem noSC_append (l₁ l₂ : List Char) (h₁ : noSpaceColon l₁ = true)
    (h₂ : noSpaceColon l₂ = true)
    (hb : l₁.getLast? = some ' ' → l₂.head? ≠ some ':') :
    noSpaceColon (l₁ ++ l₂) = true := by
  induction l₁ with
  | nil => simpa using h₂
  | cons x xs ih =>
    cases xs with
    | nil =>
      cases l₂ with
      | nil => rfl
      | cons y ys =>
        rw [List.cons_append, List.nil_append, noSpaceColon]
        simp only [Bool.and_eq_true, Bool.not_eq_true']
        refine ⟨?_, h₂⟩
        simp only [Bool.and_eq_false_iff, beq_eq_false_iff_ne, ne_eq]
        by_cases hx : x = ' '
        · subst hx
          have := hb (by rfl)
          simp only [List.head?_cons, ne_eq, Option.some.injEq] at this
          exact Or.inr this
        · exact Or.inl hx
    | cons y ys =>
      rw [noSpaceColon] at h₁
      simp only [Bool.and_eq_true, Bool.not_eq_true'] at h₁
      obtain ⟨h1, h2⟩ := h₁
      have ih2 := ih h2 (fun hl => hb (by rwa [List.getLast?_cons_cons]))
      rw [List.cons_append, List.cons_append, noSpaceColon]
      simp only [Bool.and_eq_true, Bool.not_eq_true']
      refine ⟨h1, ?_⟩
      rw [show y :: (ys ++ l₂) = (y :: ys) ++ l₂ from rfl]
      exact ih2

theorem splitTagBlock_not_at (x : Char) (l : List Char) (h : x ≠ '@') :
    splitTagBlock (x :: l) = (none, x :: l) := by
  simp [splitTagBlock, h]

theorem splitSourceBlock_not_colon (x : Char) (l : List Char) (h : x ≠ ':') :
    splitSourceBlock (x :: l) = (none, x :: l) := by
  simp [splitSourceBlock, h]

theorem parse_pass (t : String) (h2 : ' ' ∉ t.data)
    (h3 : t.data.head? ≠ some ':') :
    parseIRC ("PASS " ++ t) =
      { command := { command := "PASS", parameters := .text t },
        message := "" } := by
  have hns : noSpaceColon t.data = true := noSC_of_no_space _ h2
  have hbt : breakTrailing ('P' :: 'A' :: 'S' :: 'S' :: ' ' :: t.data) =
      ('P' :: 'A' :: 'S' :: 'S' :: ' ' :: t.data, none) := by
    apply breakTrailing_noSC
    exact noSC_append ['P', 'A', 'S', 'S', ' '] t.data (by decide) hns
      (fun _ => h3)
  have hba : breakAt ' ' ('P' :: 'A' :: 'S' :: 'S' :: ' ' :: t.data) =
      (['P', 'A', 'S', 'S'], some t.data) :=
    breakAt_append ' ' ['P', 'A', 'S', 'S'] t.data (by decide)
  show parseIRCChars ('P' :: 'A' :: 'S' :: 'S' :: ' ' :: t.data) = _
  simp only [parseIRCChars,
    splitTagBlock_not_at _ _ (by decide : ('P' : Char) ≠ '@'),
    splitSourceBlock_not_colon _ _ (by decide : ('P' : Char) ≠ ':'),
    hbt, hba, Option.getD_some, Option.getD_none]
  have hcmd : String.mk ['P', 'A', 'S', 'S'] = "PASS" := rfl
  rw [hcmd, paramsFor, if_neg (by decide), if_neg (by decide)]

theorem parse_nick (t : String) (h2 : ' ' ∉ t.data)
    (h3 : t.data.head? ≠ some ':') :
    parseIRC ("NICK " ++ t) =
      { command := { command := "NICK", parameters := .text t },
        message := "" } := by
  have hns : noSpaceColon t.data = true := noSC_of_no_space _ h2
  have hbt : breakTrailing ('N' :: 'I' :: 'C' :: 'K' :: ' ' :: t.data) =
      ('N' :: 'I' :: 'C' :: 'K' :: ' ' :: t.data, none) := by
    apply breakTrailing_noSC
    exact noSC_append ['N', 'I', 'C', 'K', ' '] t.data (by decide) hns
      (fun _ => h3)
  have hba : breakAt ' ' ('N' :: 'I' :: 'C' :: 'K' :: ' ' :: t.data) =
      (['N', 'I', 'C', 'K'], some t.data) :=
    breakAt_append ' ' ['N', 'I', 'C', 'K'] t.data (by decide)
  show parseIRCChars ('N' :: 'I' :: 'C' :: 'K' :: ' ' :: t.data) = _
  simp only [parseIRCChars,
    splitTagBlock_not_at _ _ (by decide : ('N' : Char) ≠ '@'),
    splitSourceBlock_not_colon _ _ (by decide : ('N' : Char) ≠ ':'),
    hbt, hba, Option.getD_some, Option.getD_none]
  rw [show String.mk ['N', 'I', 'C', 'K'] = "NICK" from rfl, paramsFor,
    if_neg (by decide), if_neg (by decide)]

theorem parse_capReq (c : String) :
    parseIRC ("CAP REQ :" ++ c) =
      { command := { command := "CAP", parameters := .text "REQ" },
        message := c } := by
  have hbt : breakTrailing
      ('C' :: 'A' :: 'P' :: ' ' :: 'R' :: 'E' :: 'Q' :: ' ' :: ':' :: c.data) =
      ('C' :: 'A' :: 'P' :: ' ' :: 'R' :: 'E' :: 'Q' :: [], some c.data) :=
    breakTrailing_append ['C', 'A', 'P', ' ', 'R', 'E', 'Q'] c.data (by decide)
  show parseIRCChars
      ('C' :: 'A' :: 'P' :: ' ' :: 'R' :: 'E' :: 'Q' :: ' ' :: ':' :: c.data) = _
  simp only [parseIRCChars,
    splitTagBlock_not_at _ _ (by decide : ('C' : Char) ≠ '@'),
    splitSourceBlock_not_colon _ _ (by decide : ('C' : Char) ≠ ':'),
    hbt, Option.getD_some, Option.getD_none]
  rw [show breakAt ' ' ('C' :: 'A' :: 'P' :: ' ' :: 'R' :: 'E' :: 'Q' :: []) =
      (['C', 'A', 'P'], some ['R', 'E', 'Q']) from by decide]
  simp only [Option.getD_some]
  rw [show String.mk ['C', 'A', 'P'] = "CAP" from rfl, paramsFor,
    if_neg (by decide), if_neg (by decide)]

theorem parse_join (ch : String) (hch : ' ' ∉ ch.data) :
    parseIRC ("JOIN #" ++ ch) =
      { command := { command := "JOIN",
                     parameters := .text (String.mk ('#' :: ch.data)) },
        message := "" } := by
  have hbt : breakTrailing ('J' :: 'O' :: 'I' :: 'N' :: ' ' :: '#' :: ch.data) =
      ('J' :: 'O' :: 'I' :: 'N' :: ' ' :: '#' :: ch.data, none) := by
    apply breakTrailing_noSC
    exact noSC_append ['J', 'O', 'I', 'N', ' ', '#'] ch.data (by decide)
      (noSC_of_no_space _ hch) (fun hl => absurd hl (by decide))
  have hba : breakAt ' ' ('J' :: 'O' :: 'I' :: 'N' :: ' ' :: '#' :: ch.data) =
      (['J', 'O', 'I', 'N'], some ('#' :: ch.data)) :=
    breakAt_append ' ' ['J', 'O', 'I', 'N'] ('#' :: ch.data) (by decide)
  show parseIRCChars ('J' :: 'O' :: 'I' :: 'N' :: ' ' :: '#' :: ch.data) = _
  simp only [parseIRCChars,
    splitTagBlock_not_at _ _ (by decide : ('J' : Char) ≠ '@'),
    splitSourceBlock_not_colon _ _ (by decide : ('J' : Char) ≠ ':'),
    hbt, hba, Option.getD_some, Option.getD_none]
  rw [show String.mk ['J', 'O', 'I', 'N'] = "JOIN" from rfl, paramsFor,
    if_neg (by decide), if_neg (by decide)]

theorem parse_privmsg (ch txt : String) (hch : ' ' ∉ ch.data) :
    parseIRC ("PRIVMSG #" ++ ch ++ " :" ++ txt) =
      { command := { command := "PRIVMSG",
                     parameters := .text (String.mk ('#' :: ch.data)) },
        message := txt } := by
  have hl : ("PRIVMSG #" ++ ch ++ " :" ++ txt).data =
      ('P' :: 'R' :: 'I' :: 'V' :: 'M' :: 'S' :: 'G' :: ' ' :: '#' :: ch.data)
        ++ ' ' :: ':' :: txt.data := by
    show (("PRIVMSG #".data ++ ch.data) ++ " :".data) ++ txt.data = _
    rw [List.append_assoc]
    rfl
  have hbt := breakTrailing_append
    ('P' :: 'R' :: 'I' :: 'V' :: 'M' :: 'S' :: 'G' :: ' ' :: '#' :: ch.data)
    txt.data
    (noSC_append ['P', 'R', 'I', 'V', 'M', 'S', 'G', ' ', '#'] ch.data
      (by decide) (noSC_of_no_space _ hch) (fun hl2 => absurd hl2 (by decide)))
  rw [List.cons_append, List.cons_append, List.cons_append, List.cons_append,
    List.cons_append, List.cons_append, List.cons_append, List.cons_append,
    List.cons_append] at hbt
  have hba : breakAt ' '
      ('P' :: 'R' :: 'I' :: 'V' :: 'M' :: 'S' :: 'G' :: ' ' :: '#' :: ch.data) =
      (['P', 'R', 'I', 'V', 'M', 'S', 'G'], some ('#' :: ch.data)) :=
    breakAt_append ' ' ['P', 'R', 'I', 'V', 'M', 'S', 'G'] ('#' :: ch.data)
      (by decide)
  show parseIRCChars ("PRIVMSG #" ++ ch ++ " :" ++ txt).data = _
  rw [hl, List.cons_append, List.cons_append, List.cons_append,
    List.cons_append, List.cons_append, List.cons_append, List.cons_append,
    List.cons_append, List.cons_append]
  simp only [parseIRCChars,
    splitTagBlock_not_at _ _ (by decide : ('P' : Char) ≠ '@'),
    splitSourceBlock_not_colon _ _ (by decide : ('P' : Char) ≠ ':'),
    hbt, hba, Option.getD_some, Option.getD_none]
  rw [show String.mk ['P', 'R', 'I', 'V', 'M', 'S', 'G'] = "PRIVMSG" from rfl,
    paramsFor, if_neg (by decide), if_neg (by decide)]

theorem parse_pong (p : String) :
    parseIRC ("PONG :" ++ p) =
      { command := { command := "PONG", parameters := .text "" },
        message := p } := by
  have hbt : breakTrailing ('P' :: 'O' :: 'N' :: 'G' :: ' ' :: ':' :: p.data) =
      ('P' :: 'O' :: 'N' :: 'G' :: [], some p.data) :=
    breakTrailing_append ['P', 'O', 'N', 'G'] p.data (by decide)
  show parseIRCChars ('P' :: 'O' :: 'N' :: 'G' :: ' ' :: ':' :: p.data) = _
  simp only [parseIRCChars,
    splitTagBlock_not_at _ _ (by decide : ('P' : Char) ≠ '@'),
    splitSourceBlock_not_colon _ _ (by decide : ('P' : Char) ≠ ':'),
    hbt, Option.getD_some, Option.getD_none]
  rw [show breakAt ' ' ('P' :: 'O' :: 'N' :: 'G' :: []) =
      (['P', 'O', 'N', 'G'], none) from by decide]
  simp only [Option.getD_none]
  rw [show String.mk ['P', 'O', 'N', 'G'] = "PONG" from rfl, paramsFor,
    if_neg (by decide), if_neg (by decide)]

/-! ## Claim theorems -/

/-- C1: two calls to `getChatConnection` with the same normalized
identity key, made while the instance previously returned for that key is
still alive (not expired), return the same instance; the registry never
holds two live entries with equal keys: the returned instance is always
registered under the key, a live registered instance is returned as-is
(with the registry unchanged), and key-uniqueness of the map is
preserved. -/
theorem getChatConnection_dedup (k : ChatMapKey) (r : ChatRegistry) :
    findConn k (getChatConnection k r).2.chatMap =
        some (getChatConnection k r).1 ∧
    (∀ id : Nat, findConn k r.chatMap = some id → id ∉ r.expired →
      getChatConnection k r = (id, r)) ∧
    (KeysNodup r.chatMap → KeysNodup (getChatConnection k r).2.chatMap) := by
  unfold getChatConnection
  cases hf : findConn k r.chatMap with
  | none =>
    refine ⟨by simp [findConn_setConn], ?_, ?_⟩
    · intro id hid
      cases hid
    · intro h
      exact keysNodup_setConn _ _ _ h
  | some id =>
    by_cases hexp : id ∈ r.expired
    · simp only [hexp, if_true, if_pos]
      refine ⟨by simp [findConn_setConn], ?_, ?_⟩
      · intro id' hid' hexp'
        injection hid' with hid'
        subst hid'
        exact absurd hexp hexp'
      · intro h
        exact keysNodup_setConn _ _ _ h
    · simp only [hexp, if_false, if_neg, not_false_eq_true]
      refine ⟨hf, ?_, fun h => h⟩
      intro id' hid' _
      injection hid' with hid'
      subst hid'
      rfl

/-- C1 witness: with the key already registered for instance `0` and `0`
not expired, the lookup returns instance `0` and leaves the registry
unchanged. -/
theorem getChatConnection_dedup_witness :
    findConn ⟨"chan", "tok"⟩
        [(⟨"chan", "tok"⟩, 0)] = some 0 ∧
    (0 : Nat) ∉ ([] : List Nat) ∧
    getChatConnection ⟨"chan", "tok"⟩
        { chatMap := [(⟨"chan", "tok"⟩, 0)], nextId := 1, expired := [] } =
      (0, { chatMap := [(⟨"chan", "tok"⟩, 0)], nextId := 1, expired := [] }) :=
  ⟨by decide, by decide,
    (getChatConnection_dedup ⟨"chan", "tok"⟩
        { chatMap := [(⟨"chan", "tok"⟩, 0)], nextId := 1,
          expired := [] }).2.1 0 (by decide) (by decide)⟩

/-- C2: calling `sendChatMessage` while the connection state is not
Connected writes nothing to the transport, queues nothing, raises no
error and leaves the connection completely unchanged. -/
theorem sendChatMessage_disconnected_noop (c : ChatConn) (text : String)
    (h : c.state ≠ .CONNECTED) : sendChatMessage c text = c := by
  unfold sendChatMessage
  rw [if_neg h]

/-- C2 witness: sending on a freshly constructed (Disconnected)
connection changes nothing. -/
theorem sendChatMessage_disconnected_noop_witness :
    (({} : ChatConn).state ≠ .CONNECTED) ∧
      sendChatMessage {} "hello" = {} :=
  ⟨by decide, sendChatMessage_disconnected_noop {} "hello" (by decide)⟩

/-- C3: a received line whose parsed command is `PING` causes exactly one
outgoing `PONG` line echoing the ping payload and pushes nothing into the
chat or whisper dispatch buffers. -/
theorem onMessage_ping_pong (c : ChatConn) (line : String)
    (h : (parseIRC line).command.command = "PING") :
    (onMessage c line).sentLines =
        c.sentLines ++ ["PONG :" ++ (parseIRC line).message] ∧
    (onMessage c line).chatMessages = c.chatMessages ∧
    (onMessage c line).whisperMessages = c.whisperMessages := by
  unfold onMessage
  simp [h]

/-- C3 witness: the line `PING :tmi.twitch.tv` parses to the ping command
and produces the single reply line `PONG :tmi.twitch.tv`. -/
theorem onMessage_ping_pong_witness :
    (parseIRC "PING :tmi.twitch.tv").command.command = "PING" ∧
    (onMessage {} "PING :tmi.twitch.tv").sentLines =
        ["PONG :tmi.twitch.tv"] ∧
    (onMessage {} "PING :tmi.twitch.tv").chatMessages = [] ∧
    (onMessage {} "PING :tmi.twitch.tv").whisperMessages = [] := by
  have h := onMessage_ping_pong {} "PING :tmi.twitch.tv" (by decide)
  exact ⟨by decide, h.1, h.2.1, h.2.2⟩

/-- C4: a transport close while the stop flag is false makes exactly one
reconnect attempt, after the backoff interval; once `disconnect` has set
the stop flag no later event ever adds a reconnect attempt and the state
remains Disconnected; `disconnect` is idempotent. -/
theorem reconnect_policy (backoff : Nat) (c : WorkerConn) :
    (c.stopFlag = false →
      (handleReconnect backoff c).reconnectTimes =
          c.reconnectTimes ++ [c.now + backoff] ∧
        (handleReconnect backoff c).state = .CONNECTING) ∧
    (∀ evs : List WorkerEvent,
      (workerRun backoff (disconnect c) evs).reconnectTimes =
          c.reconnectTimes ∧
        (workerRun backoff (disconnect c) evs).state = .DISCONNECTED ∧
        (workerRun backoff (disconnect c) evs).stopFlag = true) ∧
    disconnect (disconnect c) = disconnect c := by
  refine ⟨?_, ?_, rfl⟩
  · intro h
    simp [handleReconnect, h]
  · intro evs
    rw [workerRun_stopped backoff evs (disconnect c) rfl rfl]
    exact ⟨rfl, rfl, rfl⟩

/-- C4 witness: from a fresh connection a close event records one attempt
at time `0 + 7`; after `disconnect`, a close, a fail and another
disconnect request record none. -/
theorem reconnect_policy_witness :
    (({} : WorkerConn).stopFlag = false) ∧
    (handleReconnect 7 {}).reconnectTimes = [7] ∧
    (workerRun 7 (disconnect {})
        [.closeEvt, .failEvt, .disconnectEvt]).reconnectTimes = [] := by
  refine ⟨rfl, ?_, ?_⟩
  · exact ((reconnect_policy 7 {}).1 rfl).1
  · exact ((reconnect_policy 7 {}).2.1 [.closeEvt, .failEvt, .disconnectEvt]).1

/-- C5: the exact line
`@badges=subscriber/12,vip/1;display-name=Foo :foo!foo@foo.tmi.twitch.tv PRIVMSG #bar :hello`
parses to badges `[{subscriber, true}, {vip, true}]`, display name `Foo`,
source nick `foo`, command `PRIVMSG` and trailing message `hello`. -/
theorem parseIRC_example_line :
    parseIRC "@badges=subscriber/12,vip/1;display-name=Foo :foo!foo@foo.tmi.twitch.tv PRIVMSG #bar :hello" =
      { properties := { badgesString := "subscriber/12,vip/1"
                        badges := [⟨"subscriber", true⟩, ⟨"vip", true⟩]
                        displayName := "Foo" }
        source := { nick := "foo", host := "foo.tmi.twitch.tv" }
        command := { command := "PRIVMSG", parameters := .text "#bar" }
        message := "hello" } := by decide

/-- C6: the alternative of the parameters variant that the parser
produces is determined solely by the command name: every parse satisfies
the per-command shape table, and two lines parsed to the same command
name yield the same parameter shape (the parser is a total function, so
no input line can make it read an absent parameter). -/
theorem param_shape_by_command :
    (∀ l : String, ((parseIRC l).command.parameters).shape =
        expectedShape (parseIRC l).command.command) ∧
    ∀ l₁ l₂ : String,
      (parseIRC l₁).command.command = (parseIRC l₂).command.command →
      ((parseIRC l₁).command.parameters).shape =
        ((parseIRC l₂).command.parameters).shape := by
  have h : ∀ l : String, ((parseIRC l).command.parameters).shape =
      expectedShape (parseIRC l).command.command := by
    intro l
    simp only [parseIRC, parseIRCChars]
    exact shape_paramsFor _ _
  exact ⟨h, fun l₁ l₂ he => by rw [h l₁, h l₂, he]⟩

/-- C6 witness: two distinct `PRIVMSG` lines have the same command name
and receive the same parameter shape. -/
theorem param_shape_by_command_witness :
    (parseIRC "PRIVMSG #a :x").command.command =
        (parseIRC "PRIVMSG #b :y").command.command ∧
    ((parseIRC "PRIVMSG #a :x").command.parameters).shape =
        ((parseIRC "PRIVMSG #b :y").command.parameters).shape :=
  ⟨by decide,
    param_shape_by_command.2 "PRIVMSG #a :x" "PRIVMSG #b :y" (by decide)⟩

/-- C7: serializing any supported outgoing command (PASS, NICK,
capability request, JOIN, PRIVMSG, PONG) with validated parameters and
parsing the produced wire line yields a message whose re-serialization
reproduces the original wire line. -/
theorem serialize_parse_roundtrip (cmd : TwitchCommand)
    (h : WellFormedCommand cmd) :
    reserializeMessage (parseIRC (serializeCommand cmd)) =
      serializeCommand cmd := by
  cases cmd with
  | pass t =>
    obtain ⟨h1, h2, h3⟩ := h
    rw [serializeCommand, parse_pass t h2 h3, reserializeMessage]
    simp only
    rw [if_neg h1, if_pos trivial]
    apply String.ext
    show 'P' :: 'A' :: 'S' :: 'S' :: ' ' :: (t.data ++ []) =
      'P' :: 'A' :: 'S' :: 'S' :: ' ' :: t.data
    simp
  | nick t =>
    obtain ⟨h1, h2, h3⟩ := h
    rw [serializeCommand, parse_nick t h2 h3, reserializeMessage]
    simp only
    rw [if_neg h1, if_pos trivial]
    apply String.ext
    show 'N' :: 'I' :: 'C' :: 'K' :: ' ' :: (t.data ++ []) =
      'N' :: 'I' :: 'C' :: 'K' :: ' ' :: t.data
    simp
  | capReq c =>
    rw [serializeCommand, parse_capReq c, reserializeMessage]
    simp only
    rw [if_neg (by decide : ("REQ" : String) ≠ ""), if_neg h]
    rfl
  | join ch =>
    rw [serializeCommand, parse_join ch h, reserializeMessage]
    simp only
    rw [if_neg (fun he => by simpa using congrArg String.data he),
      if_pos trivial]
    apply String.ext
    show 'J' :: 'O' :: 'I' :: 'N' :: ' ' :: '#' :: (ch.data ++ []) =
      'J' :: 'O' :: 'I' :: 'N' :: ' ' :: '#' :: ch.data
    simp
  | privmsg ch txt =>
    obtain ⟨hch, htxt⟩ := h
    rw [serializeCommand, parse_privmsg ch txt hch, reserializeMessage]
    simp only
    rw [if_neg (fun he => by simpa using congrArg String.data he),
      if_neg htxt]
    apply String.ext
    show 'P' :: 'R' :: 'I' :: 'V' :: 'M' :: 'S' :: 'G' :: ' ' :: '#' ::
        (ch.data ++ (' ' :: ':' :: txt.data)) =
      (("PRIVMSG #".data ++ ch.data) ++ [' ', ':']) ++ txt.data
    simp
  | pong p =>
    rw [serializeCommand, parse_pong p, reserializeMessage]
    simp only
    rw [if_pos trivial, if_neg h]
    rfl

/-- C7 witness: the round trip on the concrete command
`PRIVMSG #chan :hello`. -/
theorem serialize_parse_roundtrip_witness :
    (' ' ∉ "chan".data ∧ ("hello" : String) ≠ "") ∧
    reserializeMessage
        (parseIRC (serializeCommand (.privmsg "chan" "hello"))) =
      serializeCommand (.privmsg "chan" "hello") :=
  ⟨⟨by decide, by decide⟩,
    serialize_parse_roundtrip (.privmsg "chan" "hello") ⟨by decide, by decide⟩⟩

/-- C8: the registry key comparison is a strict total order comparing the
channel name first and the credential identifier second: for all keys
exactly one of `a < b`, `b < a`, `a = b` holds, the order is transitive,
on different channel names only the channel names decide, and on equal
channel names only the tokens decide. -/
theorem chatMapKey_strict_total_order (a b c : ChatMapKey) :
    (a.lt b ∨ b.lt a ∨ a = b) ∧
    ¬(a.lt b ∧ b.lt a) ∧ ¬(a.lt b ∧ a = b) ∧ ¬(b.lt a ∧ a = b) ∧
    (a.lt b → b.lt c → a.lt c) ∧
    (a.channelName ≠ b.channelName →
      (a.lt b ↔ a.channelName < b.channelName)) ∧
    (a.channelName = b.channelName → (a.lt b ↔ a.token < b.token)) := by
  obtain ⟨achan, atok⟩ := a
  obtain ⟨bchan, btok⟩ := b
  obtain ⟨cchan, ctok⟩ := c
  unfold ChatMapKey.lt
  dsimp only
  refine ⟨?_, ?_, ?_, ?_, ?_, ?_, ?_⟩
  · rcases lt_trichotomy achan bchan with h | h | h
    · exact Or.inl (Or.inl h)
    · subst h
      rcases lt_trichotomy atok btok with h2 | h2 | h2
      · exact Or.inl (Or.inr ⟨rfl, h2⟩)
      · subst h2
        exact Or.inr (Or.inr rfl)
      · exact Or.inr (Or.inl (Or.inr ⟨rfl, h2⟩))
    · exact Or.inr (Or.inl (Or.inl h))
  · rintro ⟨h1 | ⟨e1, t1⟩, h2 | ⟨e2, t2⟩⟩
    · exact absurd (h1.trans h2) (lt_irrefl _)
    · subst e2
      exact absurd h1 (lt_irrefl _)
    · subst e1
      exact absurd h2 (lt_irrefl _)
    · exact absurd (t1.trans t2) (lt_irrefl _)
  · rintro ⟨h1 | ⟨e1, t1⟩, he⟩ <;> cases he
    · exact absurd h1 (lt_irrefl _)
    · exact absurd t1 (lt_irrefl _)
  · rintro ⟨h1 | ⟨e1, t1⟩, he⟩ <;> cases he
    · exact absurd h1 (lt_irrefl _)
    · exact absurd t1 (lt_irrefl _)
  · rintro (h1 | ⟨e1, t1⟩) (h2 | ⟨e2, t2⟩)
    · exact Or.inl (h1.trans h2)
    · subst e2
      exact Or.inl h1
    · subst e1
      exact Or.inl h2
    · subst e1
      subst e2
      exact Or.inr ⟨rfl, t1.trans t2⟩
  · intro hne
    constructor
    · rintro (h | ⟨e, _⟩)
      · exact h
      · exact absurd e hne
    · exact Or.inl
  · intro he
    subst he
    constructor
    · rintro (h | ⟨_, t⟩)
      · exact absurd h (lt_irrefl _)
      · exact t
    · intro t
      exact Or.inr ⟨rfl, t⟩

/-- C8 witness: on three concrete keys ordered by channel name, the
comparison holds pairwise and transitivity produces the third
comparison. -/
theorem chatMapKey_strict_total_order_witness :
    ChatMapKey.lt ⟨"a", "x"⟩ ⟨"b", "x"⟩ ∧
    ChatMapKey.lt ⟨"b", "x"⟩ ⟨"c", "x"⟩ ∧
    ChatMapKey.lt ⟨"a", "x"⟩ ⟨"c", "x"⟩ := by
  have h1 : ChatMapKey.lt ⟨"a", "x"⟩ ⟨"b", "x"⟩ :=
    Or.inl (by rw [String.lt_iff_toList_lt]; decide)
  have h2 : ChatMapKey.lt ⟨"b", "x"⟩ ⟨"c", "x"⟩ :=
    Or.inl (by rw [String.lt_iff_toList_lt]; decide)
  exact ⟨h1, h2,
    (chatMapKey_strict_total_order ⟨"a", "x"⟩ ⟨"b", "x"⟩
        ⟨"c", "x"⟩).2.2.2.2.1 h1 h2⟩

/-- C9: when the image is null, the pattern data is empty, or the image
is strictly smaller than the pattern in height or width, `MatchPattern`
returns early and leaves the `result` matrix completely unchanged, for
every choice of the OpenCV primitives. -/
theorem matchPattern_early_return (ops : CvOps) (img : QImage)
    (patternData : PatternImageData) (threshold : ℚ) (result : Mat)
    (useAlphaAsMask : Bool) (matchMode : TemplateMatchModes)
    (h : img.isNull = true ∨ patternData.rgbaPattern.isEmptyMat = true ∨
        img.height < patternData.rgbaPattern.rows ∨
        img.width < patternData.rgbaPattern.cols) :
    MatchPattern ops img patternData threshold result useAlphaAsMask
      matchMode = result := by
  unfold MatchPattern
  rcases h with h | h | h | h
  · simp [h]
  · simp [h]
  · by_cases h0 : (img.isNull || patternData.rgbaPattern.isEmptyMat) = true
    · simp [h0]
    · simp [h0, h]
  · by_cases h0 : (img.isNull || patternData.rgbaPattern.isEmptyMat) = true
    · simp [h0]
    · simp [h0, h]

/-- C9 witness: matching against a null image leaves a concrete non-empty
result matrix untouched. -/
theorem matchPattern_early_return_witness :
    (QImage.isNull {} = true) ∧
    MatchPattern trivialCvOps {} {} 0
        { rows := 1, cols := 1, entries := [[2]] } false .TM_SQDIFF_NORMED =
      { rows := 1, cols := 1, entries := [[2]] } :=
  ⟨by decide,
    matchPattern_early_return trivialCvOps {} {} 0
      { rows := 1, cols := 1, entries := [[2]] } false .TM_SQDIFF_NORMED
      (Or.inl (by decide))⟩

/-- C10: `ContainsPixelsInColorRange` divides by `width * height` with no
zero guard: on a zero-pixel image the division is a division by zero
(surfaced as `none`), and on every non-empty image the documented result
holds — `some` of whether the matched-pixel fraction reaches the
threshold. -/
theorem containsPixels_division_guard (image : QImage) (color : QColor)
    (cdt tpmt : ℚ) :
    (image.width * image.height = 0 →
      ContainsPixelsInColorRange image color cdt tpmt = none) ∧
    (image.width * image.height ≠ 0 →
      ContainsPixelsInColorRange image color cdt tpmt =
        some (decide
          ((matchingPixelCount image color (truncToInt (cdt * 255)) : ℚ) /
              ((image.width * image.height : Nat) : ℚ) ≥ tpmt))) := by
  constructor <;> intro h <;> simp [ContainsPixelsInColorRange, h]

/-- C10 witness: a 1×1 image with a matching pixel is non-empty and
yields `some true` at full-match threshold; the empty image yields
`none`. -/
theorem containsPixels_division_guard_witness :
    ((1 : Nat) * 1 ≠ 0) ∧
    ContainsPixelsInColorRange
        { width := 1, height := 1, pixels := [[{}]] } {} 0 1 = some true ∧
    ContainsPixelsInColorRange {} {} 0 1 = none := by
  refine ⟨by decide, ?_, ?_⟩
  · have ht : truncToInt ((0 : ℚ) * 255) = 0 := by norm_num [truncToInt]
    have h := (containsPixels_division_guard
        { width := 1, height := 1, pixels := [[{}]] } {} 0 1).2 (by decide)
    rw [h, ht]
    have hm : matchingPixelCount
        { width := 1, height := 1, pixels := [[{}]] } {} 0 = 1 := by decide
    rw [hm]
    norm_num
  · exact (containsPixels_division_guard {} {} 0 1).1 (by decide)

end advss
